import Mathlib

/-!
Shallow embedding of the FIDO2/CTAP2 authenticator core found in
components/fido-authenticator/src/lib.rs.

Modelling conventions:
* Key handles of the external crypto service are `Nat`; the service's handle
  allocation is modelled by the `next_handle` counter in `State`, so every
  generated or derived key gets a fresh handle.
* All crypto primitives (AES-CBC, HMAC, SHA-256, ChaCha8-Poly1305, signing)
  and the credential codec of the `credential` module live in an `Env` of
  pure functions; the authenticator logic itself is translated line by line.
* Byte strings are `List Nat`.
* Fallible operations return `Except Error _` together with the updated
  `State`; the `todo!()` panic on the empty-allow-list path of
  `locate_credentials` is the `Outcome.panic` constructor.
-/

/-- CTAP error codes used by the authenticator (ctap_types::authenticator::Error). -/
inductive Error
  | InvalidCommand
  | InvalidParameter
  | MissingParameter
  | InvalidOption
  | UnsupportedAlgorithm
  | PinRequired
  | PinNotSet
  | PinInvalid
  | PinAuthInvalid
  | PinAuthBlocked
  | PinBlocked
  | PinPolicyViolation
  | InvalidCredential
  | NoCredentials
  | OperationDenied
  | Other
  deriving DecidableEq, Repr

/-- Crypto-service mechanisms used by `locate_credentials`' existence check. -/
inductive Mechanism
  | P256
  | Ed25519
  deriving DecidableEq, Repr

/-- `SupportedAlgorithm` of lib.rs (repr i32: P256 = -7, Ed25519 = -8). -/
inductive SupportedAlgorithm
  | P256
  | Ed25519
  deriving DecidableEq, Repr

/-- The i32 value of a `SupportedAlgorithm` (its repr in the source). -/
def SupportedAlgorithm.val : SupportedAlgorithm → Int
  | .P256 => -7
  | .Ed25519 => -8

/-- `CredentialProtectionPolicy` (credential module / ctap_types). -/
inductive CredentialProtectionPolicy
  | optional
  | optionalWithCredentialIdList
  | required
  deriving DecidableEq, Repr

/-- Modelled from the spec: `CredentialProtectionPolicy::try_from` of the
ctap-types dependency (the credential module is not under src/): "parse
integer into policy enum (default `Optional`); invalid values ⇒
`InvalidParameter`".  CTAP2 encodes the policies as 1, 2, 3. -/
def CredentialProtectionPolicy.tryFrom (n : Nat) : Except Error CredentialProtectionPolicy :=
  match n with
  | 1 => .ok .optional
  | 2 => .ok .optionalWithCredentialIdList
  | 3 => .ok .required
  | _ => .error .InvalidParameter

/-- `Key` of the credential module: `ResidentKey(handle) | WrappedKey(bytes)`. -/
inductive KeyRef
  | residentKey (handle : Nat)
  | wrappedKey (bytes : List Nat)
  deriving DecidableEq, Repr

/-- `CredRandom` of the credential module: same Resident/Wrapped split. -/
inductive CredRandom
  | resident (handle : Nat)
  | wrapped (bytes : List Nat)
  deriving DecidableEq, Repr

/-- Modelled from the spec: the `Credential` record of the credential module
(not under src/).  lib.rs reads `algorithm`, `key` and `cred_protect`; the
remaining fields are carried for the record built by `Credential::new`. -/
structure Credential where
  algorithm : Int
  key : KeyRef
  cred_random : Option CredRandom := none
  cred_protect : CredentialProtectionPolicy := .optional
  rp_id : List Nat := []
  user_id : List Nat := []
  sign_counter : Nat := 0
  deriving DecidableEq, Repr

/-- `EncryptedSerializedCredential`: nonce, tag and ciphertext of the AEAD. -/
structure EncryptedSerializedCredential where
  nonce : List Nat
  tag : List Nat
  ciphertext : List Nat
  deriving DecidableEq, Repr

/-- Result of `encrypt_chacha8poly1305`. -/
structure EncChaChaResult where
  ciphertext : List Nat
  nonce : List Nat
  tag : List Nat
  deriving DecidableEq, Repr

/-- `ctap2::make_credential` extensions: `hmac_secret` and `cred_protect`. -/
structure MakeCredentialExtensions where
  hmac_secret : Option Bool := none
  cred_protect : Option Nat := none
  deriving DecidableEq, Repr

/-- `ctap2::make_credential::AttestedCredentialData`. -/
structure AttestedCredentialData where
  aaguid : List Nat
  credential_id : List Nat
  credential_public_key : List Nat
  deriving DecidableEq, Repr

/-- `ctap2::make_credential::AuthenticatorData`.  `flags` is the flags byte
(bit 0 = UP, bit 2 = UV, bit 6 = AT, bit 7 = ED). -/
structure AuthenticatorDataShape where
  rp_id_hash : List Nat
  flags : Nat
  sign_count : Nat
  attested_credential_data : Option AttestedCredentialData := none
  extensions : Option MakeCredentialExtensions := none
  deriving DecidableEq, Repr

/-- Flags::USER_PRESENCE (bit 0). -/
def Flags.USER_PRESENCE : Nat := 0x01

/-- Flags::USER_VERIFIED (bit 2). -/
def Flags.USER_VERIFIED : Nat := 0x04

/-- Flags::ATTESTED_CREDENTIAL_DATA (bit 6). -/
def Flags.ATTESTED_CREDENTIAL_DATA : Nat := 0x40

/-- Flags::EXTENSION_DATA (bit 7). -/
def Flags.EXTENSION_DATA : Nat := 0x80

/-- The environment: pure models of the crypto service, of the credential
codec, and of the user-presence capability.  The authenticator only consumes
their input/output contract. -/
structure Env where
  decryptAes256Cbc : Nat → List Nat → Option (List Nat)
  signHmacSha256 : Nat → List Nat → List Nat
  hashSha256 : List Nat → List Nat
  wrapKeyAes256Cbc : Nat → Nat → List Nat
  wrapKeyChaCha8Poly1305 : Nat → Nat → List Nat → List Nat
  encryptChaCha8Poly1305 : Nat → List Nat → List Nat → EncChaChaResult
  decryptChaCha8Poly1305 : Nat → List Nat → List Nat → List Nat → List Nat → Option (List Nat)
  keyExists : Mechanism → Nat → Bool
  serializeKeyCose : Nat → List Nat
  cborSerializeCose : List Nat → Option (List Nat)
  signP256 : Nat → List Nat → List Nat
  signEd25519 : Nat → List Nat → List Nat
  parseCredentialId : List Nat → Option EncryptedSerializedCredential
  deserializeCredential : List Nat → Option Credential
  serializeCredential : Credential → Option (List Nat)
  serializeAuthData : AuthenticatorDataShape → List Nat
  user_present : Bool

/-- Authenticator `State` of lib.rs (plus the handle-allocation counter and
the internal blob store of the crypto service, which the authenticator
mutates through `store_blob`). -/
structure State where
  attestation_key : Option Nat := none
  key_agreement_key : Option Nat := none
  key_encryption_key : Option Nat := none
  pin_token : Option Nat := none
  retries : Option Nat := none
  consecutive_pin_mismatches : Nat := 0
  pin_hash : Option (List Nat) := none
  next_handle : Nat := 0
  rk_blobs : List (List Nat) := []
  deriving DecidableEq, Repr

/-- Allocate a fresh key handle in the crypto service. -/
def State.alloc (s : State) : Nat × State :=
  (s.next_handle, { s with next_handle := s.next_handle + 1 })

/-- `pin_is_set`. -/
def State.pin_is_set (s : State) : Bool := s.pin_hash.isSome

/-- `rotate_key_agreement_key`: generate a fresh volatile P-256 key and
overwrite the slot. -/
def rotate_key_agreement_key (s : State) : Nat × State :=
  (s.next_handle,
   { s with key_agreement_key := some s.next_handle, next_handle := s.next_handle + 1 })

/-- `key_agreement_key`: lazily initialised. -/
def key_agreement_key_fn (s : State) : Nat × State :=
  match s.key_agreement_key with
  | some key => (key, s)
  | none => rotate_key_agreement_key s

/-- `rotate_key_encryption_key`. -/
def rotate_key_encryption_key (s : State) : Nat × State :=
  (s.next_handle,
   { s with key_encryption_key := some s.next_handle, next_handle := s.next_handle + 1 })

/-- `key_encryption_key`: lazily initialised. -/
def key_encryption_key_fn (s : State) : Nat × State :=
  match s.key_encryption_key with
  | some key => (key, s)
  | none => rotate_key_encryption_key s

/-- `rotate_pin_token`. -/
def rotate_pin_token (s : State) : Nat × State :=
  (s.next_handle,
   { s with pin_token := some s.next_handle, next_handle := s.next_handle + 1 })

/-- `pin_token`: lazily initialised. -/
def pin_token_fn (s : State) : Nat × State :=
  match s.pin_token with
  | some key => (key, s)
  | none => rotate_pin_token s

/-- `retries()`: lazily initialised to 8. -/
def retries_fn (s : State) : Nat × State :=
  match s.retries with
  | some retries => (retries, s)
  | none => (8, { s with retries := some 8 })

/-- `reset_retries`. -/
def reset_retries (s : State) : State :=
  { s with retries := some 8, consecutive_pin_mismatches := 0 }

/-- `decrement_retries`.  The source unwraps `self.state.retries`; every
caller has initialised it via `retries()` beforehand ("error to call before
initialization"), so the `getD` default branch is unreachable. -/
def decrement_retries (s : State) : State :=
  { s with retries := some (s.retries.getD 8 - 1),
           consecutive_pin_mismatches := s.consecutive_pin_mismatches + 1 }

/-- `ctap2::client_pin::PinV1Subcommand`. -/
inductive PinV1Subcommand
  | GetRetries
  | GetKeyAgreement
  | SetPin
  | ChangePin
  | GetPinToken
  deriving DecidableEq, Repr

/-- `ctap2::client_pin::Parameters`.  The platform COSE key is kept as
opaque bytes. -/
structure ClientPinParameters where
  pin_protocol : Nat
  sub_command : PinV1Subcommand
  key_agreement : Option (List Nat) := none
  new_pin_enc : Option (List Nat) := none
  pin_hash_enc : Option (List Nat) := none
  pin_auth : Option (List Nat) := none
  deriving DecidableEq, Repr

/-- `ctap2::client_pin::Response`. -/
structure ClientPinResponse where
  key_agreement : Option (List Nat) := none
  pin_token : Option (List Nat) := none
  retries : Option Nat := none
  deriving DecidableEq, Repr

/-- `generate_shared_secret`: derive our public key, CBOR-serialize the
platform COSE key and load it into the crypto service (serialization
failure maps to `InvalidParameter`), ECDH, then SHA-256-derive the
shared-secret handle. -/
def generate_shared_secret (env : Env) (s : State) (platform_kek : List Nat) :
    Except Error Nat × State :=
  let (_private_key, s1) := key_agreement_key_fn s
  let (_public_key, s2) := s1.alloc
  match env.cborSerializeCose platform_kek with
  | none => (.error .InvalidParameter, s2)
  | some _serialized_kek =>
    let (_platform_kek_handle, s3) := s2.alloc
    let (_pre_shared_secret, s4) := s3.alloc
    let (shared_secret, s5) := s4.alloc
    (.ok shared_secret, s5)

/-- `decrypt_pin_hash_and_maybe_escalate`: AES-CBC-decrypt `pin_hash_enc`;
no stored PIN hash ⇒ `InvalidCommand`; on mismatch rotate the key-agreement
key, then `PinBlocked` / `PinAuthBlocked` / `PinInvalid` in priority order. -/
def decrypt_pin_hash_and_maybe_escalate (env : Env) (s : State)
    (shared_secret : Nat) (pin_hash_enc : List Nat) : Except Error Unit × State :=
  match env.decryptAes256Cbc shared_secret pin_hash_enc with
  | none => (.error .Other, s)
  | some pin_hash =>
    match s.pin_hash with
    | none => (.error .InvalidCommand, s)
    | some stored_pin_hash =>
      if pin_hash ≠ stored_pin_hash then
        let s1 := (rotate_key_agreement_key s).2
        let s2 := (retries_fn s1).2
        if (retries_fn s1).1 = 0 then (.error .PinBlocked, s2)
        else if 3 ≤ s2.consecutive_pin_mismatches then (.error .PinAuthBlocked, s2)
        else (.error .PinInvalid, s2)
      else (.ok (), s)

/-- `hash_store_pin`: store the leftmost 16 bytes of SHA-256(pin). -/
def hash_store_pin (env : Env) (s : State) (pin : List Nat) : State :=
  { s with pin_hash := some ((env.hashSha256 pin).take 16) }

/-- `decrypt_pin_check_length`: decrypt, require padded length ≥ 64, strip
at the first NUL, require remaining length ≥ 4. -/
def decrypt_pin_check_length (env : Env) (shared_secret : Nat) (pin_enc : List Nat) :
    Except Error (List Nat) :=
  match env.decryptAes256Cbc shared_secret pin_enc with
  | none => .error .Other
  | some pin =>
    if pin.length < 64 then .error .PinPolicyViolation
    else
      let pin_length := (pin.findIdx? (fun b => b = 0)).getD pin.length
      if pin_length < 4 then .error .PinPolicyViolation
      else .ok (pin.take pin_length)

/-- `verify_pin_auth`: HMAC-SHA256 under the shared secret, compare the
leftmost 16 bytes with `pin_auth`. -/
def verify_pin_auth (env : Env) (shared_secret : Nat) (data : List Nat)
    (pin_auth : List Nat) : Except Error Unit :=
  let expected_pin_auth := env.signHmacSha256 shared_secret data
  if expected_pin_auth.take 16 = pin_auth then .ok ()
  else .error .PinAuthInvalid

/-- `verify_pin`: HMAC-SHA256 under the pin_token (lazily created),
compare the leftmost 16 bytes with `pin_auth`. -/
def verify_pin (env : Env) (s : State) (pin_auth : List Nat) (data : List Nat) :
    Except Error Unit × State :=
  let (key, s1) := pin_token_fn s
  let tag := env.signHmacSha256 key data
  if pin_auth = tag.take 16 then (.ok (), s1)
  else (.error .PinAuthInvalid, s1)

/-- `client_pin`: dispatch of the PIN-protocol-v1 subcommands.  The source
checks missing parameters one at a time, each returning `MissingParameter`;
the tuple match below is equivalent. -/
def client_pin (env : Env) (s : State) (p : ClientPinParameters) :
    Except Error ClientPinResponse × State :=
  if p.pin_protocol ≠ 1 then (.error .InvalidParameter, s)
  else
    match p.sub_command with
    | .GetRetries =>
      (.ok { retries := some (retries_fn s).1 }, (retries_fn s).2)
    | .GetKeyAgreement =>
      let s1 := (key_agreement_key_fn s).2
      (.ok { key_agreement := some (env.serializeKeyCose s1.alloc.1) }, s1.alloc.2)
    | .SetPin =>
      match p.key_agreement, p.new_pin_enc, p.pin_auth with
      | some platform_kek, some new_pin_enc, some pin_auth =>
        if s.pin_is_set then (.error .PinAuthInvalid, s)
        else
          match generate_shared_secret env s platform_kek with
          | (.error e, s1) => (.error e, s1)
          | (.ok shared_secret, s1) =>
            match verify_pin_auth env shared_secret new_pin_enc pin_auth with
            | .error e => (.error e, s1)
            | .ok () =>
              match decrypt_pin_check_length env shared_secret new_pin_enc with
              | .error e => (.error e, s1)
              | .ok new_pin =>
                let s2 := hash_store_pin env s1 new_pin
                let s3 := reset_retries s2
                (.ok {}, s3)
      | _, _, _ => (.error .MissingParameter, s)
    | .ChangePin =>
      match p.key_agreement, p.pin_hash_enc, p.new_pin_enc, p.pin_auth with
      | some platform_kek, some pin_hash_enc, some new_pin_enc, some pin_auth =>
        let s1 := (retries_fn s).2
        if (retries_fn s).1 = 0 then (.error .PinBlocked, s1)
        else
          match generate_shared_secret env s1 platform_kek with
          | (.error e, s2) => (.error e, s2)
          | (.ok shared_secret, s2) =>
            let data := new_pin_enc ++ pin_hash_enc
            match verify_pin_auth env shared_secret data pin_auth with
            | .error e => (.error e, s2)
            | .ok () =>
              let s3 := decrement_retries s2
              match decrypt_pin_hash_and_maybe_escalate env s3 shared_secret pin_hash_enc with
              | (.error e, s4) => (.error e, s4)
              | (.ok (), s4) =>
                let s5 := reset_retries s4
                match decrypt_pin_check_length env shared_secret new_pin_enc with
                | .error e => (.error e, s5)
                | .ok new_pin =>
                  (.ok {}, hash_store_pin env s5 new_pin)
      | _, _, _, _ => (.error .MissingParameter, s)
    | .GetPinToken =>
      match p.key_agreement, p.pin_hash_enc with
      | some platform_kek, some pin_hash_enc =>
        let s1 := (retries_fn s).2
        if (retries_fn s).1 = 0 then (.error .PinBlocked, s1)
        else
          match generate_shared_secret env s1 platform_kek with
          | (.error e, s2) => (.error e, s2)
          | (.ok shared_secret, s2) =>
            let s3 := decrement_retries s2
            match decrypt_pin_hash_and_maybe_escalate env s3 shared_secret pin_hash_enc with
            | (.error e, s4) => (.error e, s4)
            | (.ok (), s4) =>
              let s5 := reset_retries s4
              let s6 := (pin_token_fn s5).2
              let pin_token_enc := env.wrapKeyAes256Cbc shared_secret (pin_token_fn s5).1
              if pin_token_enc.length ≠ 32 then (.error .Other, s6)
              else (.ok { pin_token := some pin_token_enc }, s6)
      | _, _ => (.error .MissingParameter, s)

/-- `ctap2::AuthenticatorOptions` (rk / uv; up is not toggleable). -/
structure AuthenticatorOptions where
  rk : Option Bool := none
  uv : Option Bool := none
  deriving DecidableEq, Repr

/-- Steps 2-7 of `pin_prechecks` (everything after the zero-length
`pin_auth` discovery probe). -/
def pin_prechecks_after_probe (env : Env) (s : State)
    (options : Option AuthenticatorOptions) (pin_auth : Option (List Nat))
    (pin_protocol : Option Nat) (data : List Nat) : Except Error Bool × State :=
  -- 2. check PIN protocol is 1 if pinAuth was sent
  if pin_auth.isSome ∧ pin_protocol ≠ some 1 then (.error .PinAuthInvalid, s)
  -- 3. if no PIN is set and platform sent uv or pinAuth: InvalidOption
  else if ¬ s.pin_is_set ∧ Option.any (fun o => decide (o.uv = some true)) options then
    (.error .InvalidOption, s)
  else if ¬ s.pin_is_set ∧ pin_auth.isSome then (.error .InvalidOption, s)
  -- 4.-7. if a PIN is set, verify pinAuth (or require it)
  else if s.pin_is_set then
    match pin_auth with
    | some pa =>
      if pa.length ≠ 16 then (.error .InvalidParameter, s)
      else if pin_protocol = some 1 then
        match verify_pin env s pa data with
        | (.error e, s1) => (.error e, s1)
        | (.ok (), s1) => (.ok true, s1)
      else (.error .PinAuthInvalid, s)
    | none => (.error .PinRequired, s)
  else (.ok false, s)

/-- `pin_prechecks`: returns whether UV was performed.  Step 1 is the
discovery probe for zero-length `pin_auth`. -/
def pin_prechecks (env : Env) (s : State)
    (options : Option AuthenticatorOptions) (pin_auth : Option (List Nat))
    (pin_protocol : Option Nat) (data : List Nat) : Except Error Bool × State :=
  match pin_auth with
  | some pa =>
    if pa.length = 0 then
      if ¬ env.user_present then (.error .OperationDenied, s)
      else if ¬ s.pin_is_set then (.error .PinNotSet, s)
      else (.error .PinAuthInvalid, s)
    else pin_prechecks_after_probe env s options pin_auth pin_protocol data
  | none => pin_prechecks_after_probe env s options pin_auth pin_protocol data

/-- A `PublicKeyCredentialDescriptor` of an allow list; only the `id` is
used by the source. -/
structure CredentialDescriptor where
  id : List Nat
  deriving DecidableEq, Repr

/-- Outcome of an operation that may also panic (the `todo!()` on the
empty-allow-list path of `locate_credentials`). -/
inductive Outcome (α : Type)
  | ok (a : α)
  | err (e : Error)
  | panic
  deriving DecidableEq, Repr

/-- The allow-list validation of `locate_credentials`: parse each
descriptor id as an encrypted serialized credential, AEAD-decrypt it under
the key-encryption key with AAD = rp_id, deserialize; invalid entries are
dropped. -/
def validate_allow_list (env : Env) (kek : Nat) (rp_id : List Nat)
    (allow_list : List CredentialDescriptor) : List Credential :=
  allow_list.filterMap (fun credential_descriptor =>
    (env.parseCredentialId credential_descriptor.id).bind (fun encrypted_credential =>
      env.decryptChaCha8Poly1305 kek encrypted_credential.ciphertext rp_id
        encrypted_credential.nonce encrypted_credential.tag)
      |>.bind (fun serialized_credential =>
        env.deserializeCredential serialized_credential))

/-- The existence filter of `locate_credentials`: wrapped keys pass, resident
keys must exist in the crypto service for the credential's algorithm. -/
def credential_key_exists (env : Env) (credential : Credential) : Bool :=
  match credential.key with
  | .wrappedKey _ => true
  | .residentKey key =>
    if credential.algorithm = -7 then env.keyExists .P256 key
    else if credential.algorithm = -8 then env.keyExists .Ed25519 key
    else false

/-- The credential-protection filter of `locate_credentials`. -/
def cred_protect_passes (allowed_credentials_passed uv_performed : Bool)
    (credential : Credential) : Bool :=
  match credential.cred_protect with
  | .optional => true
  | .optionalWithCredentialIdList => allowed_credentials_passed || uv_performed
  | .required => uv_performed

/-- `locate_credentials`: validate the allow list (any dropped entry ⇒
`InvalidCredential`), filter by key existence and by credential-protection
policy; an empty result is `NoCredentials`.  The empty/missing allow-list
path is `todo!()` in the source, modelled as `Outcome.panic`. -/
def locate_credentials (env : Env) (s : State) (rp_id : List Nat)
    (allow_list : Option (List CredentialDescriptor)) (uv_performed : Bool) :
    Outcome (List Credential) × State :=
  let (kek, s1) := key_encryption_key_fn s
  let check := fun (allowed_credentials : List Credential) =>
    let allowed_credentials_passed : Bool := decide (0 < allowed_credentials.length)
    if allowed_credentials_passed then
      let existing_credentials := allowed_credentials.filter (credential_key_exists env)
      let applicable_credentials :=
        existing_credentials.filter (cred_protect_passes allowed_credentials_passed uv_performed)
      if applicable_credentials.length = 0 then (Outcome.err Error.NoCredentials, s1)
      else (Outcome.ok applicable_credentials, s1)
    else (Outcome.panic, s1)
  match allow_list with
  | some al =>
    let valid_allowed_credentials := validate_allow_list env kek rp_id al
    if valid_allowed_credentials.length < al.length then (Outcome.err Error.InvalidCredential, s1)
    else check valid_allowed_credentials
  | none => check []

/-- `ctap2::get_assertion::Parameters`. -/
structure GetAssertionParameters where
  rp_id : List Nat
  client_data_hash : List Nat
  allow_list : Option (List CredentialDescriptor) := none
  options : Option AuthenticatorOptions := none
  pin_auth : Option (List Nat) := none
  pin_protocol : Option Nat := none
  deriving DecidableEq, Repr

/-- `ctap2::get_assertion::Response`: never built by the source (the
function is unfinished), so it carries no data. -/
structure GetAssertionResponse where
  deriving DecidableEq, Repr

/-- `get_assertion`: pin_prechecks, locate credentials, then the source
returns `Err(Error::InvalidCommand)` ("GetAssertion not done YET"). -/
def get_assertion (env : Env) (s : State) (p : GetAssertionParameters) :
    Outcome GetAssertionResponse × State :=
  match pin_prechecks env s p.options p.pin_auth p.pin_protocol p.client_data_hash with
  | (.error e, s1) => (.err e, s1)
  | (.ok uv_performed, s1) =>
    match locate_credentials env s1 p.rp_id p.allow_list uv_performed with
    | (.panic, s2) => (.panic, s2)
    | (.err e, s2) => (.err e, s2)
    | (.ok _credentials, s2) => (.err .InvalidCommand, s2)

/-- `ctap2::make_credential::Parameters`. -/
structure MakeCredentialParameters where
  client_data_hash : List Nat
  rp_id : List Nat
  user_id : List Nat := []
  pub_key_cred_params : List Int
  exclude_list : Option (List CredentialDescriptor) := none
  options : Option AuthenticatorOptions := none
  extensions : Option MakeCredentialExtensions := none
  pin_auth : Option (List Nat) := none
  pin_protocol : Option Nat := none
  deriving DecidableEq, Repr

/-- `ctap2::make_credential::PackedAttestationStatement`.  `x5c` is never
populated (self-attestation mode only). -/
structure PackedAttestationStatement where
  alg : Int
  sig : List Nat
  x5c : Option Unit := none
  deriving DecidableEq, Repr

/-- `ctap2::make_credential::Response`.  The source stores the CBOR
serialization of the authenticator data; the structured value is kept here
(its serialization is the abstract `Env.serializeAuthData`). -/
structure MakeCredentialResponse where
  fmt : String
  auth_data : AuthenticatorDataShape
  att_stmt : PackedAttestationStatement
  deriving DecidableEq, Repr

/-- One step of the algorithm-negotiation loop of `make_credential`
(step 7): -7 only fills an empty slot, -8 always overwrites. -/
def selectAlgorithmStep (algorithm : Option SupportedAlgorithm) (alg : Int) :
    Option SupportedAlgorithm :=
  if alg = -7 then (if algorithm = none then some .P256 else algorithm)
  else if alg = -8 then some .Ed25519
  else algorithm

/-- The algorithm-negotiation loop of `make_credential` over
`pub_key_cred_params`. -/
def selectAlgorithm (pub_key_cred_params : List Int) : Option SupportedAlgorithm :=
  pub_key_cred_params.foldl selectAlgorithmStep none

/-- Step 9 of `make_credential`: process the `hmac-secret` and
`credProtect` extensions.  A requested hmac-secret generates a fresh
HMAC key, kept resident for rk and otherwise wrapped under the
key-encryption key with empty AAD. -/
def process_extensions (env : Env) (s : State) (p : MakeCredentialParameters)
    (rk_requested : Bool) :
    Except Error (Option CredRandom × CredentialProtectionPolicy) × State :=
  match p.extensions with
  | none => (.ok (none, .optional), s)
  | some ext =>
    let hs :=
      if ext.hmac_secret = some true then
        if rk_requested then (some (CredRandom.resident s.alloc.1), s.alloc.2)
        else
          (some (CredRandom.wrapped
            (env.wrapKeyChaCha8Poly1305 (key_encryption_key_fn s.alloc.2).1 s.alloc.1 [])),
           (key_encryption_key_fn s.alloc.2).2)
      else (none, s)
    match ext.cred_protect with
    | some policy =>
      match CredentialProtectionPolicy.tryFrom policy with
      | .error e => (.error e, hs.2)
      | .ok parsed => (.ok (hs.1, parsed), hs.2)
    | none => (.ok (hs.1, .optional), hs.2)

/-- The configured AAGUID, b"AAGUID0123456789". -/
def aaguid : List Nat := [65, 65, 71, 85, 73, 68, 48, 49, 50, 51, 52, 53, 54, 55, 56, 57]

/-- The flags byte built in step 13.a of `make_credential`: UP always, UV if
uv_performed, AT always, ED if hmac-secret was requested or the
credential-protection policy is not `Optional`. -/
def make_credential_flags (uv_performed : Bool)
    (hmac_secret_requested : Option CredRandom)
    (cred_protect_requested : CredentialProtectionPolicy) : Nat :=
  let flags := Flags.USER_PRESENCE
  let flags := if uv_performed then flags.lor Flags.USER_VERIFIED else flags
  let flags := flags.lor Flags.ATTESTED_CREDENTIAL_DATA
  if hmac_secret_requested.isSome ∨ cred_protect_requested ≠ .optional then
    flags.lor Flags.EXTENSION_DATA
  else flags

/-- Steps 10-13 of `make_credential` (user presence, key generation,
credential construction, unconditional blob store, credential id,
authenticator data and self-attestation).  `Modelled from the spec:` the
`CredentialId` layout `nonce || tag || ciphertext` and `Credential::new`
as plain record construction come from the credential module, which is not
under src/. -/
def make_credential_core (env : Env) (s : State) (p : MakeCredentialParameters)
    (uv_performed : Bool) (algorithm : SupportedAlgorithm)
    (rk_requested : Bool) (hmac_secret_requested : Option CredRandom)
    (cred_protect_requested : CredentialProtectionPolicy) :
    Except Error MakeCredentialResponse × State :=
  -- 10. get UP, if denied error OperationDenied
  if ¬ env.user_present then (.error .OperationDenied, s)
  else
    -- 11. generate credential keypair (internal storage if rk else volatile)
    let a1 := s.alloc
    let private_key := a1.1
    let a2 := a1.2.alloc
    let public_key := a2.1
    let s2 := a2.2
    let cose_public_key := env.serializeKeyCose public_key
    -- 12.a generate credential
    let kp :=
      if rk_requested then (KeyRef.residentKey private_key, s2)
      else
        let kk := key_encryption_key_fn s2
        (KeyRef.wrappedKey (env.wrapKeyChaCha8Poly1305 kk.1 private_key []), kk.2)
    let key_parameter := kp.1
    let s3 := kp.2
    let credential : Credential :=
      { algorithm := -(algorithm.val),
        key := key_parameter,
        cred_random := hmac_secret_requested,
        cred_protect := cred_protect_requested,
        rp_id := p.rp_id,
        user_id := p.user_id,
        sign_counter := 123 }
    match env.serializeCredential credential with
    | none => (.error .Other, s3)
    | some serialized_credential =>
      -- store it (unconditionally) under the label "rk" in internal storage
      let s4 := { s3 with rk_blobs := s3.rk_blobs ++ [serialized_credential] }
      -- 12.b generate credential ID = AEAD(serialized credential), AAD = rp.id
      let kk2 := key_encryption_key_fn s4
      let key := kk2.1
      let s5 := kk2.2
      let encrypted_serialized_credential :=
        env.encryptChaCha8Poly1305 key serialized_credential p.rp_id
      let credential_id :=
        encrypted_serialized_credential.nonce ++ encrypted_serialized_credential.tag ++
          encrypted_serialized_credential.ciphertext
      -- 13.a AuthenticatorData
      let authenticator_data : AuthenticatorDataShape :=
        { rp_id_hash := env.hashSha256 p.rp_id,
          flags := make_credential_flags uv_performed hmac_secret_requested cred_protect_requested,
          sign_count := 123,
          attested_credential_data := some
            { aaguid := aaguid,
              credential_id := credential_id,
              credential_public_key := cose_public_key },
          extensions := p.extensions }
      let serialized_auth_data := env.serializeAuthData authenticator_data
      -- 13.b the signature over auth_data || client_data_hash (self-attestation)
      let commitment := serialized_auth_data ++ p.client_data_hash
      let sig_alg : List Nat × Int :=
        match algorithm with
        | .Ed25519 => (env.signEd25519 private_key commitment, (-8 : Int))
        | .P256 => (env.signP256 private_key commitment, (-7 : Int))
      (.ok { fmt := "packed",
             auth_data := authenticator_data,
             att_stmt := { alg := sig_alg.2, sig := sig_alg.1, x5c := none } },
       s5)

/-- `make_credential`: pin_prechecks, algorithm negotiation, options and
extensions, then `make_credential_core`. -/
def make_credential (env : Env) (s : State) (p : MakeCredentialParameters) :
    Except Error MakeCredentialResponse × State :=
  match pin_prechecks env s p.options p.pin_auth p.pin_protocol p.client_data_hash with
  | (.error e, s1) => (.error e, s1)
  | (.ok uv_performed, s1) =>
    match selectAlgorithm p.pub_key_cred_params with
    | none => (.error .UnsupportedAlgorithm, s1)
    | some algorithm =>
      let rk_requested : Bool := Option.any (fun o => decide (o.rk = some true)) p.options
      match process_extensions env s1 p rk_requested with
      | (.error e, s2) => (.error e, s2)
      | (.ok (hmac_secret_requested, cred_protect_requested), s2) =>
        make_credential_core env s2 p uv_performed algorithm rk_requested
          hmac_secret_requested cred_protect_requested

/-! ## Helper lemmas: which state fields each operation can touch -/

theorem alloc_retries (s : State) : (State.alloc s).2.retries = s.retries := rfl

theorem pin_token_fn_retries (s : State) : (pin_token_fn s).2.retries = s.retries := by
  unfold pin_token_fn rotate_pin_token
  split <;> rfl

theorem key_agreement_key_fn_retries (s : State) :
    (key_agreement_key_fn s).2.retries = s.retries := by
  unfold key_agreement_key_fn rotate_key_agreement_key
  split <;> rfl

theorem key_encryption_key_fn_retries (s : State) :
    (key_encryption_key_fn s).2.retries = s.retries := by
  unfold key_encryption_key_fn rotate_key_encryption_key
  split <;> rfl

theorem verify_pin_retries (env : Env) (s : State) (pa d : List Nat) :
    (verify_pin env s pa d).2.retries = s.retries := by
  unfold verify_pin
  have h := pin_token_fn_retries s
  split
  rename_i key s1 heq
  rw [heq] at h
  dsimp only
  split <;> simp_all

theorem pin_prechecks_after_probe_retries (env : Env) (s : State)
    (options : Option AuthenticatorOptions) (pin_auth : Option (List Nat))
    (pin_protocol : Option Nat) (data : List Nat) :
    (pin_prechecks_after_probe env s options pin_auth pin_protocol data).2.retries = s.retries := by
  unfold pin_prechecks_after_probe
  split
  · rfl
  split
  · rfl
  split
  · rfl
  split
  · split
    · split
      · rfl
      · split
        · split
          all_goals
            rename_i heq
            have h := congrArg (fun x => x.2.retries) heq
            simp only [verify_pin_retries] at h
            exact h.symm
        · rfl
    · rfl
  · rfl

theorem pin_prechecks_retries (env : Env) (s : State)
    (options : Option AuthenticatorOptions) (pin_auth : Option (List Nat))
    (pin_protocol : Option Nat) (data : List Nat) :
    (pin_prechecks env s options pin_auth pin_protocol data).2.retries = s.retries := by
  unfold pin_prechecks
  have h := pin_prechecks_after_probe_retries env s options pin_auth pin_protocol data
  split
  · split
    · split
      · rfl
      split
      · rfl
      · rfl
    · exact h
  · exact h

theorem retries_of_eq {α : Type} {p : α × State} {a : α} {t : State} {r : Option Nat}
    (heq : p = (a, t)) (h : p.2.retries = r) : t.retries = r := by
  rw [heq] at h
  exact h

/-- `generate_shared_secret` succeeds whenever the platform key
CBOR-serializes, and only allocates handles: the PIN state is untouched. -/
theorem generate_shared_secret_ok (env : Env) (s : State) (pk ser : List Nat)
    (h : env.cborSerializeCose pk = some ser) :
    ∃ shared s5, generate_shared_secret env s pk = (.ok shared, s5) ∧
      s5.retries = s.retries ∧
      s5.pin_hash = s.pin_hash ∧
      s5.consecutive_pin_mismatches = s.consecutive_pin_mismatches ∧
      s5.rk_blobs = s.rk_blobs := by
  unfold generate_shared_secret
  unfold key_agreement_key_fn rotate_key_agreement_key
  cases hk : s.key_agreement_key <;> simp [State.alloc, h] <;>
    exact ⟨_, _, ⟨rfl, rfl⟩, rfl, rfl, rfl, rfl⟩

theorem generate_shared_secret_retries (env : Env) (s : State) (pk : List Nat) :
    (generate_shared_secret env s pk).2.retries = s.retries := by
  unfold generate_shared_secret
  unfold key_agreement_key_fn rotate_key_agreement_key
  cases hk : s.key_agreement_key <;> cases hc : env.cborSerializeCose pk <;>
    simp [State.alloc, hc]

/-- Mismatch case of `decrypt_pin_hash_and_maybe_escalate`: the
key-agreement key is rotated to a fresh handle and the error is
`PinBlocked` / `PinAuthBlocked` / `PinInvalid` in priority order. -/
theorem decrypt_pin_hash_mismatch (env : Env) (s : State) (shared : Nat)
    (pin_hash_enc pt stored : List Nat) (r : Nat)
    (hdec : env.decryptAes256Cbc shared pin_hash_enc = some pt)
    (hstored : s.pin_hash = some stored)
    (hne : pt ≠ stored)
    (hr : s.retries = some r) :
    decrypt_pin_hash_and_maybe_escalate env s shared pin_hash_enc =
      (.error (if r = 0 then .PinBlocked
               else if 3 ≤ s.consecutive_pin_mismatches then .PinAuthBlocked
               else .PinInvalid),
       { s with key_agreement_key := some s.next_handle,
                next_handle := s.next_handle + 1 }) := by
  unfold decrypt_pin_hash_and_maybe_escalate rotate_key_agreement_key retries_fn
  rw [hdec, hstored]
  simp [hne, hr]
  by_cases h3 : 3 ≤ s.consecutive_pin_mismatches
  · by_cases h0 : r = 0 <;> simp [h0, h3]
  · by_cases h0 : r = 0 <;> simp [h0, h3]

/-- Match case of `decrypt_pin_hash_and_maybe_escalate`: state unchanged. -/
theorem decrypt_pin_hash_match (env : Env) (s : State) (shared : Nat)
    (pin_hash_enc stored : List Nat)
    (hdec : env.decryptAes256Cbc shared pin_hash_enc = some stored)
    (hstored : s.pin_hash = some stored) :
    decrypt_pin_hash_and_maybe_escalate env s shared pin_hash_enc = (.ok (), s) := by
  unfold decrypt_pin_hash_and_maybe_escalate
  rw [hdec, hstored]
  simp

/-- No stored PIN hash: `decrypt_pin_hash_and_maybe_escalate` returns
`InvalidCommand` without touching the state. -/
theorem decrypt_pin_hash_no_pin (env : Env) (s : State) (shared : Nat)
    (pin_hash_enc pt : List Nat)
    (hdec : env.decryptAes256Cbc shared pin_hash_enc = some pt)
    (hstored : s.pin_hash = none) :
    decrypt_pin_hash_and_maybe_escalate env s shared pin_hash_enc =
      (.error .InvalidCommand, s) := by
  unfold decrypt_pin_hash_and_maybe_escalate
  rw [hdec, hstored]

/-! ## Concrete fixtures used by scenarios and witnesses -/

/-- A concrete environment: every AES-CBC decryption yields `[1, 1]` and the
wrapped pin token has length 32. -/
def envWrongPin : Env :=
  { decryptAes256Cbc := fun _ _ => some [1, 1]
    signHmacSha256 := fun _ _ => List.replicate 32 0
    hashSha256 := fun _ => List.replicate 32 0
    wrapKeyAes256Cbc := fun _ _ => List.replicate 32 0
    wrapKeyChaCha8Poly1305 := fun _ _ _ => []
    encryptChaCha8Poly1305 := fun _ _ _ => ⟨[], [], []⟩
    decryptChaCha8Poly1305 := fun _ _ _ _ _ => none
    keyExists := fun _ _ => true
    serializeKeyCose := fun _ => []
    cborSerializeCose := fun _ => some []
    signP256 := fun _ _ => []
    signEd25519 := fun _ _ => []
    parseCredentialId := fun _ => none
    deserializeCredential := fun _ => none
    serializeCredential := fun _ => some []
    serializeAuthData := fun _ => []
    user_present := true }

/-- Fresh state with a PIN set (stored hash `[0, 0]`), retries 8, no
mismatches. -/
def freshPinState : State := { pin_hash := some [0, 0], retries := some 8 }

/-- The GetPinToken request used by the wrong-PIN scenario. -/
def getPinTokenParams : ClientPinParameters :=
  { pin_protocol := 1, sub_command := .GetPinToken,
    key_agreement := some [], pin_hash_enc := some [2] }

/-- C2: on a PIN-hash mismatch in `decrypt_pin_hash_and_maybe_escalate`
(used by ChangePin and GetPinToken), the key-agreement key is rotated to a
fresh key before returning, and the error is `PinBlocked` if retries = 0,
else `PinAuthBlocked` if consecutive_pin_mismatches ≥ 3, else `PinInvalid`.
In particular three wrong-PIN GetPinToken calls from the fresh state return
PinInvalid, PinInvalid, PinAuthBlocked, leave retries at 5, and each attempt
saw a distinct key_agreement_key. -/
theorem C2_pin_mismatch_rotates_and_escalates
    (env : Env) (s : State) (shared : Nat) (pin_hash_enc pt stored : List Nat) (r : Nat)
    (hdec : env.decryptAes256Cbc shared pin_hash_enc = some pt)
    (hstored : s.pin_hash = some stored)
    (hne : pt ≠ stored)
    (hr : s.retries = some r)
    (hwf : ∀ k, s.key_agreement_key = some k → k < s.next_handle) :
    (decrypt_pin_hash_and_maybe_escalate env s shared pin_hash_enc).2.key_agreement_key =
        some s.next_handle ∧
    (decrypt_pin_hash_and_maybe_escalate env s shared pin_hash_enc).2.key_agreement_key ≠
        s.key_agreement_key ∧
    (decrypt_pin_hash_and_maybe_escalate env s shared pin_hash_enc).1 =
      .error (if r = 0 then .PinBlocked
              else if 3 ≤ s.consecutive_pin_mismatches then .PinAuthBlocked
              else .PinInvalid) ∧
    ((client_pin envWrongPin freshPinState getPinTokenParams).1 = .error .PinInvalid ∧
     (client_pin envWrongPin
        (client_pin envWrongPin freshPinState getPinTokenParams).2 getPinTokenParams).1 =
       .error .PinInvalid ∧
     (client_pin envWrongPin
        (client_pin envWrongPin
          (client_pin envWrongPin freshPinState getPinTokenParams).2 getPinTokenParams).2
        getPinTokenParams).1 = .error .PinAuthBlocked ∧
     (client_pin envWrongPin
        (client_pin envWrongPin
          (client_pin envWrongPin freshPinState getPinTokenParams).2 getPinTokenParams).2
        getPinTokenParams).2.retries = some 5 ∧
     (key_agreement_key_fn freshPinState).1 ≠
       (key_agreement_key_fn (client_pin envWrongPin freshPinState getPinTokenParams).2).1 ∧
     (key_agreement_key_fn (client_pin envWrongPin freshPinState getPinTokenParams).2).1 ≠
       (key_agreement_key_fn
         (client_pin envWrongPin
           (client_pin envWrongPin freshPinState getPinTokenParams).2 getPinTokenParams).2).1 ∧
     (key_agreement_key_fn freshPinState).1 ≠
       (key_agreement_key_fn
         (client_pin envWrongPin
           (client_pin envWrongPin freshPinState getPinTokenParams).2 getPinTokenParams).2).1) := by
  rw [decrypt_pin_hash_mismatch env s shared pin_hash_enc pt stored r hdec hstored hne hr]
  refine ⟨rfl, ?_, rfl, ?_⟩
  · intro hcontra
    simp only at hcontra
    cases hk : s.key_agreement_key with
    | none => rw [hk] at hcontra; exact Option.noConfusion hcontra
    | some k =>
      rw [hk] at hcontra
      have h1 := hwf k hk
      injection hcontra with h2
      omega
  · exact ⟨rfl, rfl, rfl, rfl, by decide, by decide, by decide⟩

/-- Witness for C2 at a concrete input: the wrong-PIN environment with the
fresh PIN state, one mismatching decryption. -/
theorem C2_pin_mismatch_rotates_and_escalates_witness :
    (decrypt_pin_hash_and_maybe_escalate envWrongPin freshPinState 0 [2]).1 =
      .error .PinInvalid :=
  ((C2_pin_mismatch_rotates_and_escalates envWrongPin freshPinState 0 [2] [1, 1] [0, 0] 8
      rfl rfl (by decide) rfl
      (fun k hk => by simp [freshPinState] at hk)).2.2.1).trans rfl

/-! ## Algorithm negotiation (C3) -/

theorem selectAlgorithmStep_ed (a : Int) :
    selectAlgorithmStep (some .Ed25519) a = some .Ed25519 := by
  unfold selectAlgorithmStep
  by_cases h7 : a = -7
  · rw [if_pos h7]
    simp
  · rw [if_neg h7]
    by_cases h8 : a = -8
    · rw [if_pos h8]
    · rw [if_neg h8]

theorem selectAlgorithm_fold_ed (l : List Int) :
    l.foldl selectAlgorithmStep (some .Ed25519) = some .Ed25519 := by
  induction l with
  | nil => rfl
  | cons a l ih => simp only [List.foldl_cons, selectAlgorithmStep_ed, ih]

theorem selectAlgorithm_fold_mem_ed (l : List Int) (h : (-8 : Int) ∈ l) :
    ∀ acc, l.foldl selectAlgorithmStep acc = some .Ed25519 := by
  induction l with
  | nil => cases h
  | cons a l ih =>
    intro acc
    by_cases ha : a = -8
    · subst ha
      have hstep : selectAlgorithmStep acc (-8) = some .Ed25519 := by
        unfold selectAlgorithmStep
        rw [if_neg (by norm_num), if_pos rfl]
      simp only [List.foldl_cons, hstep, selectAlgorithm_fold_ed]
    · have hmem : (-8 : Int) ∈ l := by
        cases h with
        | head => exact absurd rfl ha
        | tail _ h => exact h
      simp only [List.foldl_cons]
      exact ih hmem _

theorem selectAlgorithm_fold_p256 (l : List Int) (h : (-8 : Int) ∉ l) :
    l.foldl selectAlgorithmStep (some .P256) = some .P256 := by
  induction l with
  | nil => rfl
  | cons a l ih =>
    have ha : a ≠ -8 := fun hc => h (hc ▸ List.mem_cons_self a l)
    have hstep : selectAlgorithmStep (some .P256) a = some .P256 := by
      unfold selectAlgorithmStep
      by_cases h7 : a = -7
      · rw [if_pos h7]
        simp
      · rw [if_neg h7, if_neg ha]
    simp only [List.foldl_cons, hstep]
    exact ih (fun hc => h (List.mem_cons_of_mem a hc))

theorem selectAlgorithm_fold_mem_p256 (l : List Int)
    (h7 : (-7 : Int) ∈ l) (h8 : (-8 : Int) ∉ l) :
    l.foldl selectAlgorithmStep none = some .P256 := by
  induction l with
  | nil => cases h7
  | cons a l ih =>
    have ha8 : a ≠ -8 := fun hc => h8 (hc ▸ List.mem_cons_self a l)
    have h8l : (-8 : Int) ∉ l := fun hc => h8 (List.mem_cons_of_mem a hc)
    by_cases ha : a = -7
    · subst ha
      have hstep : selectAlgorithmStep none (-7) = some .P256 := by
        unfold selectAlgorithmStep
        rw [if_pos rfl]
        simp
      simp only [List.foldl_cons, hstep]
      exact selectAlgorithm_fold_p256 l h8l
    · have hmem : (-7 : Int) ∈ l := by
        cases h7 with
        | head => exact absurd rfl ha
        | tail _ h => exact h
      have hstep : selectAlgorithmStep none a = none := by
        unfold selectAlgorithmStep
        rw [if_neg ha, if_neg ha8]
      simp only [List.foldl_cons, hstep]
      exact ih hmem h8l

theorem selectAlgorithm_fold_none (l : List Int)
    (h7 : (-7 : Int) ∉ l) (h8 : (-8 : Int) ∉ l) :
    l.foldl selectAlgorithmStep none = none := by
  induction l with
  | nil => rfl
  | cons a l ih =>
    have ha7 : a ≠ -7 := fun hc => h7 (hc ▸ List.mem_cons_self a l)
    have ha8 : a ≠ -8 := fun hc => h8 (hc ▸ List.mem_cons_self a l)
    have hstep : selectAlgorithmStep none a = none := by
      unfold selectAlgorithmStep
      rw [if_neg ha7, if_neg ha8]
    simp only [List.foldl_cons, hstep]
    exact ih (fun hc => h7 (List.mem_cons_of_mem a hc))
      (fun hc => h8 (List.mem_cons_of_mem a hc))

/-- On a successful `make_credential_core`, the attestation algorithm in the
packed statement is the COSE id of the chosen algorithm and the flags byte
is `make_credential_flags`. -/
theorem make_credential_core_ok_shape (env : Env) (s : State)
    (p : MakeCredentialParameters) (uv : Bool) (alg : SupportedAlgorithm)
    (rk : Bool) (hm : Option CredRandom) (cp : CredentialProtectionPolicy)
    (resp : MakeCredentialResponse) (t : State)
    (h : make_credential_core env s p uv alg rk hm cp = (.ok resp, t)) :
    resp.att_stmt.alg = alg.val ∧
    resp.auth_data.flags = make_credential_flags uv hm cp ∧
    resp.auth_data.extensions = p.extensions := by
  cases alg
  all_goals
    unfold make_credential_core at h
    simp only [SupportedAlgorithm.val] at h
    split at h
    · exact absurd h (by simp)
    · split at h <;> split at h
      all_goals
        first
        | (simp at h
           done)
        | (injection h with h1 h2
           injection h1 with h1
           subst h1
           exact ⟨rfl, rfl, rfl⟩)

/-- C3: algorithm negotiation of `make_credential`: Ed25519 is chosen if -8
is offered anywhere in `pub_key_cred_params` (regardless of order relative
to -7); P-256 is chosen if -7 is offered but -8 is not; with neither the
command fails with `UnsupportedAlgorithm`.  On a successful command the
chosen algorithm is the attestation algorithm of the packed statement. -/
theorem C3_algorithm_selection (l : List Int) :
    ((-8 : Int) ∈ l → selectAlgorithm l = some .Ed25519) ∧
    ((-7 : Int) ∈ l → (-8 : Int) ∉ l → selectAlgorithm l = some .P256) ∧
    ((-7 : Int) ∉ l → (-8 : Int) ∉ l → selectAlgorithm l = none) ∧
    (∀ (env : Env) (s : State) (p : MakeCredentialParameters)
       (resp : MakeCredentialResponse) (t : State),
       p.pub_key_cred_params = l →
       make_credential env s p = (.ok resp, t) →
       ((-8 : Int) ∈ l → resp.att_stmt.alg = -8) ∧
       ((-7 : Int) ∈ l → (-8 : Int) ∉ l → resp.att_stmt.alg = -7)) ∧
    (∀ (env : Env) (s : State) (p : MakeCredentialParameters) (uv : Bool) (t : State),
       p.pub_key_cred_params = l →
       (-7 : Int) ∉ l → (-8 : Int) ∉ l →
       pin_prechecks env s p.options p.pin_auth p.pin_protocol p.client_data_hash =
         (.ok uv, t) →
       make_credential env s p = (.error .UnsupportedAlgorithm, t)) := by
  refine ⟨fun h8 => selectAlgorithm_fold_mem_ed l h8 none,
          fun h7 h8 => selectAlgorithm_fold_mem_p256 l h7 h8,
          fun h7 h8 => selectAlgorithm_fold_none l h7 h8, ?_, ?_⟩
  · intro env s p resp t hpl hok
    unfold make_credential at hok
    rcases hpp : pin_prechecks env s p.options p.pin_auth p.pin_protocol p.client_data_hash
      with ⟨res, s1⟩
    rw [hpp] at hok
    cases res with
    | error e => simp at hok
    | ok uv =>
      dsimp only at hok
      rw [hpl] at hok
      rcases hsel : selectAlgorithm l with _ | algorithm
      · rw [hsel] at hok
        simp at hok
      · rw [hsel] at hok
        dsimp only at hok
        rcases hpe : process_extensions env s1 p
            (Option.any (fun o => decide (o.rk = some true)) p.options) with ⟨pres, s2⟩
        rw [hpe] at hok
        cases pres with
        | error e => simp at hok
        | ok pr =>
          rcases pr with ⟨hm, cp⟩
          dsimp only at hok
          have hshape := make_credential_core_ok_shape env s2 p uv algorithm
            (Option.any (fun o => decide (o.rk = some true)) p.options) hm cp resp t hok
          constructor
          · intro h8
            have := selectAlgorithm_fold_mem_ed l h8 none
            have halg : algorithm = .Ed25519 := by
              rw [show selectAlgorithm l = l.foldl selectAlgorithmStep none from rfl, this] at hsel
              injection hsel with h
              exact h.symm
            rw [hshape.1, halg]
            rfl
          · intro h7 h8
            have := selectAlgorithm_fold_mem_p256 l h7 h8
            have halg : algorithm = .P256 := by
              rw [show selectAlgorithm l = l.foldl selectAlgorithmStep none from rfl, this] at hsel
              injection hsel with h
              exact h.symm
            rw [hshape.1, halg]
            rfl
  · intro env s p uv t hpl h7 h8 hpre
    unfold make_credential
    rw [hpre]
    dsimp only
    rw [hpl]
    rw [show selectAlgorithm l = l.foldl selectAlgorithmStep none from rfl,
        selectAlgorithm_fold_none l h7 h8]

/-- Witness for C3 with both -7 and -8 offered, -7 first. -/
theorem C3_algorithm_selection_witness :
    selectAlgorithm [-7, -8] = some .Ed25519 :=
  (C3_algorithm_selection [-7, -8]).1 (by decide)

/-- C4: if any allow-list entry is dropped during validation (fails to
parse, to AEAD-decrypt under the key-encryption key with AAD = rp_id, or to
deserialize), i.e. fewer valid entries than submitted, `locate_credentials`
returns `InvalidCredential` instead of proceeding with the rest. -/
theorem C4_allow_list_strictness (env : Env) (s : State) (rp_id : List Nat)
    (al : List CredentialDescriptor) (uv : Bool)
    (hdrop : (validate_allow_list env (key_encryption_key_fn s).1 rp_id al).length < al.length) :
    (locate_credentials env s rp_id (some al) uv).1 = .err .InvalidCredential := by
  unfold locate_credentials
  rcases hk : key_encryption_key_fn s with ⟨kek, s1⟩
  rw [hk] at hdrop
  dsimp only at hdrop ⊢
  rw [if_pos hdrop]

/-- Witness for C4: a single allow-list entry whose id fails to parse. -/
theorem C4_allow_list_strictness_witness :
    (locate_credentials envWrongPin {} [0] (some [⟨[1]⟩]) false).1 = .err .InvalidCredential :=
  C4_allow_list_strictness envWrongPin {} [0] [⟨[1]⟩] false (by decide)

/-- C5: the credential-protection filter of GetAssertion: `Optional` always
passes; `OptionalWithCredentialIdList` passes iff a non-empty allow list was
supplied or uv was performed; `Required` passes iff uv was performed; a
`Required` credential is never returned when uv_performed = false; and if no
credential passes the filters the result is `NoCredentials`. -/
theorem C5_cred_protect_filtering (passed uv : Bool) (c : Credential) :
    (c.cred_protect = .optional → cred_protect_passes passed uv c = true) ∧
    (c.cred_protect = .optionalWithCredentialIdList →
      (cred_protect_passes passed uv c = true ↔ (passed = true ∨ uv = true))) ∧
    (c.cred_protect = .required →
      (cred_protect_passes passed uv c = true ↔ uv = true)) ∧
    (∀ (env : Env) (s : State) (rp_id : List Nat)
       (al : Option (List CredentialDescriptor)) (creds : List Credential) (t : State),
       locate_credentials env s rp_id al uv = (.ok creds, t) →
       uv = false → ∀ c2 ∈ creds, c2.cred_protect ≠ .required) ∧
    (∀ (env : Env) (s : State) (rp_id : List Nat) (al : List CredentialDescriptor),
       ¬ (validate_allow_list env (key_encryption_key_fn s).1 rp_id al).length < al.length →
       0 < (validate_allow_list env (key_encryption_key_fn s).1 rp_id al).length →
       ((validate_allow_list env (key_encryption_key_fn s).1 rp_id al).filter
           (credential_key_exists env)).filter (cred_protect_passes true uv) = [] →
       (locate_credentials env s rp_id (some al) uv).1 = .err .NoCredentials) := by
  refine ⟨?_, ?_, ?_, ?_, ?_⟩
  · intro hc
    unfold cred_protect_passes
    rw [hc]
  · intro hc
    unfold cred_protect_passes
    rw [hc]
    cases passed <;> cases uv <;> simp
  · intro hc
    unfold cred_protect_passes
    rw [hc]
  · intro env s rp_id al creds t hloc huv c2 hmem hreq
    subst huv
    unfold locate_credentials at hloc
    rcases hk : key_encryption_key_fn s with ⟨kek, s1⟩
    rw [hk] at hloc
    cases al with
    | none => simp at hloc
    | some l =>
      dsimp only at hloc
      split at hloc
      · exact absurd hloc (by simp)
      · split at hloc
        · split at hloc
          · exact absurd hloc (by simp)
          · injection hloc with h1 h2
            injection h1 with h1
            subst h1
            rw [List.mem_filter] at hmem
            have hpass := hmem.2
            unfold cred_protect_passes at hpass
            rw [hreq] at hpass
            simp at hpass
        · exact absurd hloc (by simp)
  · intro env s rp_id al hnodrop hnonempty hempty
    unfold locate_credentials
    rcases hk : key_encryption_key_fn s with ⟨kek, s1⟩
    rw [hk] at hnodrop hnonempty hempty
    dsimp only at hnodrop hnonempty hempty ⊢
    rw [if_neg hnodrop]
    have hp : (decide (0 < (validate_allow_list env kek rp_id al).length)) = true := by
      simpa using hnonempty
    rw [hp]
    rw [if_pos rfl]
    rw [hempty]
    simp

/-- Witness for C5: an `Optional` credential passes the filter with neither
an allow list nor uv. -/
theorem C5_cred_protect_filtering_witness :
    cred_protect_passes false false
      { algorithm := -7, key := .wrappedKey [], cred_protect := .optional } = true :=
  (C5_cred_protect_filtering false false
    { algorithm := -7, key := .wrappedKey [], cred_protect := .optional }).1 rfl

/-- A valid credential as produced by the test codec: wrapped key, policy
`Optional`. -/
def credOptionalWrapped : Credential := { algorithm := -7, key := .wrappedKey [] }

/-- Environment in which the single allow-list entry decodes to
`credOptionalWrapped`. -/
def envValidCredential : Env :=
  { envWrongPin with
    parseCredentialId := fun _ => some ⟨[], [], []⟩
    decryptChaCha8Poly1305 := fun _ _ _ _ _ => some []
    deserializeCredential := fun _ => some credOptionalWrapped }

/-- A GetAssertion request with one (decodable) allow-list entry, no PIN
material. -/
def gaParamsValid : GetAssertionParameters :=
  { rp_id := [0], client_data_hash := [], allow_list := some [⟨[1]⟩] }

/-- C1: with pin_prechecks passing and `locate_credentials` returning a
non-empty applicable set, `get_assertion` does not assemble an assertion:
the source is an unfinished stub ("GetAssertion not done YET") and returns
`Err(Error::InvalidCommand)`. -/
theorem C1_get_assertion_returns_invalid_command :
    (pin_prechecks envValidCredential {} gaParamsValid.options gaParamsValid.pin_auth
        gaParamsValid.pin_protocol gaParamsValid.client_data_hash).1 = .ok false ∧
    (locate_credentials envValidCredential {} gaParamsValid.rp_id gaParamsValid.allow_list
        false).1 = .ok [credOptionalWrapped] ∧
    (get_assertion envValidCredential {} gaParamsValid).1 = .err .InvalidCommand :=
  ⟨rfl, rfl, rfl⟩

/-- MakeCredential request with rk absent, P-256, no extensions, no PIN. -/
def mcParamsNoRk : MakeCredentialParameters :=
  { client_data_hash := [], rp_id := [0], pub_key_cred_params := [-7] }

/-- MakeCredential request with options present and rk = false. -/
def mcParamsRkFalse : MakeCredentialParameters :=
  { client_data_hash := [], rp_id := [0], pub_key_cred_params := [-7],
    options := some { rk := some false } }

/-- The response produced by `make_credential` on `mcParamsNoRk` under
`envWrongPin`. -/
def mcRespNoRk : MakeCredentialResponse :=
  { fmt := "packed",
    auth_data :=
      { rp_id_hash := List.replicate 32 0,
        flags := 65,
        sign_count := 123,
        attested_credential_data := some
          { aaguid := aaguid, credential_id := [], credential_public_key := [] },
        extensions := none },
    att_stmt := { alg := -7, sig := [], x5c := none } }

/-- The state after `make_credential` on `mcParamsNoRk` under `envWrongPin`:
note the "rk"-labelled blob although rk was not requested. -/
def mcStateNoRk : State :=
  { key_encryption_key := some 2, next_handle := 3, rk_blobs := [[]] }

/-- C7: `make_credential` stores the serialized credential as an
internal-storage blob labelled "rk" unconditionally - also when options.rk
is absent or false - although its own step-12 comment says "if `rk` is set,
store or overwrite key pair". -/
theorem C7_rk_blob_stored_without_rk :
    ({} : State).rk_blobs = [] ∧
    make_credential envWrongPin {} mcParamsNoRk = (.ok mcRespNoRk, mcStateNoRk) ∧
    make_credential envWrongPin {} mcParamsRkFalse = (.ok mcRespNoRk, mcStateNoRk) ∧
    mcStateNoRk.rk_blobs = [[]] :=
  ⟨rfl, rfl, rfl, rfl⟩

/-- The discovery probe of `pin_prechecks`: with a present, zero-length
pin_auth the outcome is fully determined - `OperationDenied` without user
presence, else `PinNotSet` without a PIN, else `PinAuthInvalid` - and the
state is untouched. -/
theorem pin_prechecks_probe (env : Env) (s : State)
    (options : Option AuthenticatorOptions) (pin_protocol : Option Nat) (data : List Nat) :
    pin_prechecks env s options (some []) pin_protocol data =
      (.error (if ¬ env.user_present then .OperationDenied
               else if ¬ s.pin_is_set then .PinNotSet else .PinAuthInvalid), s) := by
  unfold pin_prechecks
  dsimp only
  by_cases hu : env.user_present <;> by_cases hp : s.pin_is_set <;> simp [hu, hp]

/-- C8: a MakeCredential or GetAssertion request whose pin_auth is present
with length 0 first solicits user presence (OperationDenied when absent) and
only then answers PinNotSet (no PIN) or PinAuthInvalid (PIN set); no other
outcome is possible on this path, and the state is unchanged. -/
theorem C8_discovery_probe (env : Env) (s : State)
    (pmc : MakeCredentialParameters) (pga : GetAssertionParameters)
    (hmc : pmc.pin_auth = some []) (hga : pga.pin_auth = some []) :
    make_credential env s pmc =
      (.error (if ¬ env.user_present then .OperationDenied
               else if ¬ s.pin_is_set then .PinNotSet else .PinAuthInvalid), s) ∧
    get_assertion env s pga =
      (.err (if ¬ env.user_present then .OperationDenied
             else if ¬ s.pin_is_set then .PinNotSet else .PinAuthInvalid), s) := by
  constructor
  · unfold make_credential
    rw [hmc, pin_prechecks_probe]
  · unfold get_assertion
    rw [hga, pin_prechecks_probe]

/-- Witness for C8: probe with a PIN set, user present. -/
theorem C8_discovery_probe_witness :
    make_credential envWrongPin freshPinState
        { mcParamsNoRk with pin_auth := some [] } =
      (.error .PinAuthInvalid, freshPinState) :=
  (C8_discovery_probe envWrongPin freshPinState
      { mcParamsNoRk with pin_auth := some [] }
      { gaParamsValid with pin_auth := some [] } rfl rfl).1.trans rfl

/-- Characterization of a successful `process_extensions`: cred_random is
generated iff the hmac-secret extension was requested, and the policy is the
parsed `credProtect` value (default `Optional`). -/
theorem process_extensions_ok_shape (env : Env) (s : State)
    (p : MakeCredentialParameters) (rk : Bool) (hm : Option CredRandom)
    (cp : CredentialProtectionPolicy) (s2 : State)
    (h : process_extensions env s p rk = (.ok (hm, cp), s2)) :
    (hm.isSome = (match p.extensions with
                  | some e => decide (e.hmac_secret = some true)
                  | none => false)) ∧
    ((cp ≠ .optional) ↔ (match p.extensions with
                         | some e =>
                           (match e.cred_protect with
                            | some n => CredentialProtectionPolicy.tryFrom n ≠ .ok .optional
                            | none => False)
                         | none => False)) := by
  cases hext : p.extensions with
  | none =>
    unfold process_extensions at h
    rw [hext] at h
    simp only [Prod.mk.injEq, Except.ok.injEq] at h
    obtain ⟨⟨h1, h2⟩, h3⟩ := h
    subst h1
    subst h2
    simp
  | some ext =>
    unfold process_extensions at h
    rw [hext] at h
    dsimp only at h
    cases hcp : ext.cred_protect with
    | none =>
      rw [hcp] at h
      dsimp only at h
      by_cases hh : ext.hmac_secret = some true
      · rw [if_pos hh] at h
        split at h <;>
          (simp only [Prod.mk.injEq, Except.ok.injEq] at h
           obtain ⟨⟨h1, h2⟩, h3⟩ := h
           subst h1
           subst h2
           simp [hh, hcp])
      · rw [if_neg hh] at h
        simp only [Prod.mk.injEq, Except.ok.injEq] at h
        obtain ⟨⟨h1, h2⟩, h3⟩ := h
        subst h1
        subst h2
        simp [hh, hcp]
    | some n =>
      rw [hcp] at h
      dsimp only at h
      cases htf : CredentialProtectionPolicy.tryFrom n with
      | error e =>
        rw [htf] at h
        dsimp only at h
        exact absurd h (by simp)
      | ok parsed =>
        rw [htf] at h
        dsimp only at h
        have hside : (parsed ≠ .optional) ↔
            (CredentialProtectionPolicy.tryFrom n ≠ .ok .optional) := by
          rw [htf]
          constructor
          · intro hne hok
            injection hok with hok
            exact hne hok
          · intro hne hcontra
            subst hcontra
            exact hne rfl
        by_cases hh : ext.hmac_secret = some true
        · rw [if_pos hh] at h
          split at h <;>
            (simp only [Prod.mk.injEq, Except.ok.injEq] at h
             obtain ⟨⟨h1, h2⟩, h3⟩ := h
             subst h1
             subst h2
             refine ⟨by simp [hh], ?_⟩
             dsimp only
             rw [hcp]
             exact hside)
        · rw [if_neg hh] at h
          simp only [Prod.mk.injEq, Except.ok.injEq] at h
          obtain ⟨⟨h1, h2⟩, h3⟩ := h
          subst h1
          subst h2
          refine ⟨by simp [hh], ?_⟩
          dsimp only
          rw [hcp]
          exact hside

/-- The four flag bits produced in step 13.a of `make_credential`. -/
theorem make_credential_flags_testBits (uv : Bool) (hm : Option CredRandom)
    (cp : CredentialProtectionPolicy) :
    (make_credential_flags uv hm cp).testBit 0 = true ∧
    (make_credential_flags uv hm cp).testBit 2 = uv ∧
    (make_credential_flags uv hm cp).testBit 6 = true ∧
    (make_credential_flags uv hm cp).testBit 7 = (hm.isSome || decide (cp ≠ .optional)) := by
  unfold make_credential_flags Flags.USER_PRESENCE Flags.USER_VERIFIED
  unfold Flags.ATTESTED_CREDENTIAL_DATA Flags.EXTENSION_DATA
  cases uv <;> cases hm <;> cases cp <;> simp <;> decide

/-- C9: on a successful MakeCredential the flags byte of the returned
AuthenticatorData has UP (bit 0) always set, UV (bit 2) set iff
pin_prechecks returned uv_performed = true for this command, AT (bit 6)
always set, and ED (bit 7) set iff the hmac-secret extension was requested
or the parsed credProtect policy is not `Optional`. -/
theorem C9_auth_data_flags (env : Env) (s : State) (p : MakeCredentialParameters)
    (uv : Bool) (s1 : State) (resp : MakeCredentialResponse) (t : State)
    (hpre : pin_prechecks env s p.options p.pin_auth p.pin_protocol p.client_data_hash =
      (.ok uv, s1))
    (hok : make_credential env s p = (.ok resp, t)) :
    resp.auth_data.flags.testBit 0 = true ∧
    (resp.auth_data.flags.testBit 2 = true ↔ uv = true) ∧
    resp.auth_data.flags.testBit 6 = true ∧
    (resp.auth_data.flags.testBit 7 = true ↔
      (match p.extensions with
       | some e => e.hmac_secret = some true ∨
           (match e.cred_protect with
            | some n => CredentialProtectionPolicy.tryFrom n ≠ .ok .optional
            | none => False)
       | none => False)) := by
  unfold make_credential at hok
  rw [hpre] at hok
  dsimp only at hok
  rcases hsel : selectAlgorithm p.pub_key_cred_params with _ | algorithm
  · rw [hsel] at hok
    simp at hok
  · rw [hsel] at hok
    dsimp only at hok
    rcases hpe : process_extensions env s1 p
        (Option.any (fun o => decide (o.rk = some true)) p.options) with ⟨pres, s2⟩
    rw [hpe] at hok
    cases pres with
    | error e => simp at hok
    | ok pr =>
      rcases pr with ⟨hm, cp⟩
      dsimp only at hok
      have hflags := (make_credential_core_ok_shape env s2 p uv algorithm
        (Option.any (fun o => decide (o.rk = some true)) p.options) hm cp resp t hok).2.1
      have hpes := process_extensions_ok_shape env s1 p
        (Option.any (fun o => decide (o.rk = some true)) p.options) hm cp s2 hpe
      have hbits := make_credential_flags_testBits uv hm cp
      rw [hflags]
      refine ⟨hbits.1, ?_, hbits.2.2.1, ?_⟩
      · rw [hbits.2.1]
      · rw [hbits.2.2.2]
        simp only [Bool.or_eq_true, decide_eq_true_eq, hpes.1, hpes.2]
        cases hext : p.extensions with
        | none => simp
        | some e => simp

/-- Witness for C9: the concrete MakeCredential run without PIN yields
flags with UP set and UV clear. -/
theorem C9_auth_data_flags_witness :
    mcRespNoRk.auth_data.flags.testBit 0 = true ∧
    mcRespNoRk.auth_data.flags.testBit 2 = false := by
  have h := C9_auth_data_flags envWrongPin {} mcParamsNoRk false {} mcRespNoRk mcStateNoRk
    rfl rfl
  exact ⟨h.1, by simpa using h.2.1⟩

/-! ## Retry-counter invariant (C6) -/

/-- The invariant of the claim: retries, when initialised, is at most 8
(it is a `Nat`, so it is never negative). -/
def retries_bounded (s : State) : Prop := ∀ r, s.retries = some r → r ≤ 8

theorem retries_bounded_of_eq {s t : State} (h : t.retries = s.retries)
    (hs : retries_bounded s) : retries_bounded t := by
  intro r hr
  rw [h] at hr
  exact hs r hr

theorem retries_fn_bounded (s : State) (hs : retries_bounded s) :
    retries_bounded (retries_fn s).2 := by
  unfold retries_fn
  cases h : s.retries with
  | none =>
    intro r hr
    simp at hr
    omega
  | some x => exact hs

theorem reset_retries_bounded (s : State) : retries_bounded (reset_retries s) := by
  intro r hr
  simp [reset_retries] at hr
  omega

theorem decrement_retries_bounded (s : State) (hs : retries_bounded s) :
    retries_bounded (decrement_retries s) := by
  intro r hr
  simp [decrement_retries] at hr
  cases h : s.retries with
  | none =>
    rw [h] at hr
    simp at hr
    omega
  | some x =>
    rw [h] at hr
    simp at hr
    have := hs x h
    omega

theorem decrypt_pin_hash_bounded (env : Env) (s : State) (shared : Nat)
    (enc : List Nat) (hs : retries_bounded s) :
    retries_bounded (decrypt_pin_hash_and_maybe_escalate env s shared enc).2 := by
  unfold decrypt_pin_hash_and_maybe_escalate
  split
  · exact hs
  · split
    · exact hs
    · split
      · have hrot : retries_bounded (rotate_key_agreement_key s).2 :=
          retries_bounded_of_eq rfl hs
        have hb := retries_fn_bounded _ hrot
        dsimp only
        split
        · exact hb
        · split
          · exact hb
          · exact hb
      · exact hs

theorem hash_store_pin_retries (env : Env) (s : State) (pin : List Nat) :
    (hash_store_pin env s pin).retries = s.retries := rfl

theorem pin_token_fn_state (s : State) :
    (pin_token_fn s).2.retries = s.retries ∧
    (pin_token_fn s).2.consecutive_pin_mismatches = s.consecutive_pin_mismatches ∧
    (pin_token_fn s).2.pin_hash = s.pin_hash := by
  unfold pin_token_fn rotate_pin_token
  split <;> exact ⟨rfl, rfl, rfl⟩

theorem bounded_of_eq_pair {α : Type} {p : α × State} {a : α} {t : State}
    (heq : p = (a, t)) (h : retries_bounded p.2) : retries_bounded t := by
  rw [heq] at h
  exact h

/-- `client_pin` preserves the retry-counter bound. -/
theorem client_pin_retries_bounded (env : Env) (s : State) (p : ClientPinParameters)
    (hs : retries_bounded s) : retries_bounded (client_pin env s p).2 := by
  unfold client_pin
  split
  · exact hs
  · split
    -- GetRetries
    · exact retries_fn_bounded s hs
    -- GetKeyAgreement
    · exact retries_bounded_of_eq
        ((alloc_retries _).trans (key_agreement_key_fn_retries s)) hs
    -- SetPin
    · split
      · split
        · exact hs
        · split
          · next e s1 heq =>
            exact retries_bounded_of_eq
              (retries_of_eq heq (generate_shared_secret_retries env s _)) hs
          · next shared s1 heq =>
            have h1 : retries_bounded s1 := retries_bounded_of_eq
              (retries_of_eq heq (generate_shared_secret_retries env s _)) hs
            split
            · exact h1
            · split
              · exact h1
              · exact reset_retries_bounded _
      · exact hs
    -- ChangePin
    · split
      · dsimp only
        split
        · exact retries_fn_bounded s hs
        · split
          · next e s2 heq =>
            exact bounded_of_eq_pair heq (retries_bounded_of_eq
              (generate_shared_secret_retries env _ _) (retries_fn_bounded s hs))
          · next shared s2 heq =>
            have h2 : retries_bounded s2 := bounded_of_eq_pair heq (retries_bounded_of_eq
              (generate_shared_secret_retries env _ _) (retries_fn_bounded s hs))
            split
            · exact h2
            · have h3 := decrement_retries_bounded s2 h2
              split
              · next e s4 heq2 =>
                exact bounded_of_eq_pair heq2 (decrypt_pin_hash_bounded env _ shared _ h3)
              · next s4 heq2 =>
                split
                · exact reset_retries_bounded _
                · exact retries_bounded_of_eq (hash_store_pin_retries env _ _)
                    (reset_retries_bounded _)
      · exact hs
    -- GetPinToken
    · split
      · dsimp only
        split
        · exact retries_fn_bounded s hs
        · split
          · next e s2 heq =>
            exact bounded_of_eq_pair heq (retries_bounded_of_eq
              (generate_shared_secret_retries env _ _) (retries_fn_bounded s hs))
          · next shared s2 heq =>
            have h2 : retries_bounded s2 := bounded_of_eq_pair heq (retries_bounded_of_eq
              (generate_shared_secret_retries env _ _) (retries_fn_bounded s hs))
            have h3 := decrement_retries_bounded s2 h2
            split
            · next e s4 heq2 =>
              exact bounded_of_eq_pair heq2 (decrypt_pin_hash_bounded env _ shared _ h3)
            · next s4 heq2 =>
              have h6 : retries_bounded (pin_token_fn (reset_retries s4)).2 :=
                retries_bounded_of_eq (pin_token_fn_state _).1 (reset_retries_bounded s4)
              split
              · exact h6
              · exact h6
      · exact hs

theorem process_extensions_retries (env : Env) (s : State)
    (p : MakeCredentialParameters) (rk : Bool) :
    (process_extensions env s p rk).2.retries = s.retries := by
  unfold process_extensions
  split
  · rfl
  · dsimp only
    repeat' split
    all_goals simp [alloc_retries, key_encryption_key_fn_retries]

theorem make_credential_core_retries (env : Env) (s : State)
    (p : MakeCredentialParameters) (uv : Bool) (alg : SupportedAlgorithm)
    (rk : Bool) (hm : Option CredRandom) (cp : CredentialProtectionPolicy) :
    (make_credential_core env s p uv alg rk hm cp).2.retries = s.retries := by
  unfold make_credential_core
  split
  · rfl
  · dsimp only
    repeat' split
    all_goals simp [alloc_retries, key_encryption_key_fn_retries]

theorem make_credential_retries (env : Env) (s : State) (p : MakeCredentialParameters) :
    (make_credential env s p).2.retries = s.retries := by
  unfold make_credential
  rcases hpp : pin_prechecks env s p.options p.pin_auth p.pin_protocol p.client_data_hash
    with ⟨res, s1⟩
  have h1 : s1.retries = s.retries :=
    retries_of_eq hpp (pin_prechecks_retries env s p.options p.pin_auth p.pin_protocol
      p.client_data_hash)
  cases res with
  | error e => exact h1
  | ok uv =>
    dsimp only
    rcases hsel : selectAlgorithm p.pub_key_cred_params with _ | algorithm
    · exact h1
    · dsimp only
      split
      · next e s2 heq =>
        exact (retries_of_eq heq (process_extensions_retries env s1 p _)).trans h1
      · next hm cp s2 heq =>
        exact (make_credential_core_retries env s2 p uv algorithm _ hm cp).trans
          ((retries_of_eq heq (process_extensions_retries env s1 p _)).trans h1)

theorem locate_credentials_retries (env : Env) (s : State) (rp_id : List Nat)
    (al : Option (List CredentialDescriptor)) (uv : Bool) :
    (locate_credentials env s rp_id al uv).2.retries = s.retries := by
  unfold locate_credentials
  rcases hk : key_encryption_key_fn s with ⟨kek, s1⟩
  have h1 : s1.retries = s.retries :=
    retries_of_eq hk (key_encryption_key_fn_retries s)
  dsimp only
  repeat' split
  all_goals exact h1

theorem get_assertion_retries (env : Env) (s : State) (p : GetAssertionParameters) :
    (get_assertion env s p).2.retries = s.retries := by
  unfold get_assertion
  rcases hpp : pin_prechecks env s p.options p.pin_auth p.pin_protocol p.client_data_hash
    with ⟨res, s1⟩
  have h1 : s1.retries = s.retries :=
    retries_of_eq hpp (pin_prechecks_retries env s p.options p.pin_auth p.pin_protocol
      p.client_data_hash)
  cases res with
  | error e => exact h1
  | ok uv =>
    dsimp only
    rcases hloc : locate_credentials env s1 p.rp_id p.allow_list uv with ⟨lres, s2⟩
    have h2 : s2.retries = s1.retries :=
      retries_of_eq hloc (locate_credentials_retries env s1 p.rp_id p.allow_list uv)
    cases lres with
    | ok creds => exact h2.trans h1
    | err e => exact h2.trans h1
    | panic => exact h2.trans h1

theorem retries_fn_of_some {s : State} {r : Nat} (h : s.retries = some r) :
    retries_fn s = (r, s) := by
  unfold retries_fn
  rw [h]

/-- GetPinToken with a wrong PIN: retries ends exactly one lower and the
command fails with the escalation error. -/
theorem get_pin_token_wrong_pin (env : Env) (s : State)
    (platform_kek pin_hash_enc ser pt stored : List Nat) (r : Nat)
    (hr : s.retries = some r) (hr0 : r ≠ 0)
    (hcbor : env.cborSerializeCose platform_kek = some ser)
    (hdec : ∀ k, env.decryptAes256Cbc k pin_hash_enc = some pt)
    (hstored : s.pin_hash = some stored)
    (hne : pt ≠ stored) :
    (client_pin env s { pin_protocol := 1, sub_command := .GetPinToken,
                        key_agreement := some platform_kek,
                        pin_hash_enc := some pin_hash_enc }).2.retries = some (r - 1) ∧
    (client_pin env s { pin_protocol := 1, sub_command := .GetPinToken,
                        key_agreement := some platform_kek,
                        pin_hash_enc := some pin_hash_enc }).1 =
      .error (if r - 1 = 0 then .PinBlocked
              else if 3 ≤ s.consecutive_pin_mismatches + 1 then .PinAuthBlocked
              else .PinInvalid) := by
  unfold client_pin
  dsimp only
  rw [if_neg (by simp)]
  rw [retries_fn_of_some hr]
  dsimp only
  rw [if_neg hr0]
  obtain ⟨shared, s5, hg, hret, hpin, hmis, hblobs⟩ :=
    generate_shared_secret_ok env s platform_kek ser hcbor
  rw [hg]
  dsimp only
  have h3r : (decrement_retries s5).retries = some (r - 1) := by
    simp [decrement_retries, hret, hr]
  have h3p : (decrement_retries s5).pin_hash = some stored := by
    simp [decrement_retries, hpin, hstored]
  have h3m : (decrement_retries s5).consecutive_pin_mismatches =
      s.consecutive_pin_mismatches + 1 := by
    simp [decrement_retries, hmis]
  rw [decrypt_pin_hash_mismatch env (decrement_retries s5) shared pin_hash_enc pt stored
    (r - 1) (hdec shared) h3p hne h3r]
  dsimp only
  constructor
  · exact h3r
  · rw [h3m]

/-- GetPinToken with the right PIN: retries is reset to 8 and the mismatch
counter to 0. -/
theorem get_pin_token_right_pin (env : Env) (s : State)
    (platform_kek pin_hash_enc ser stored : List Nat) (r : Nat)
    (hr : s.retries = some r) (hr0 : r ≠ 0)
    (hcbor : env.cborSerializeCose platform_kek = some ser)
    (hdec : ∀ k, env.decryptAes256Cbc k pin_hash_enc = some stored)
    (hstored : s.pin_hash = some stored) :
    (client_pin env s { pin_protocol := 1, sub_command := .GetPinToken,
                        key_agreement := some platform_kek,
                        pin_hash_enc := some pin_hash_enc }).2.retries = some 8 ∧
    (client_pin env s { pin_protocol := 1, sub_command := .GetPinToken,
                        key_agreement := some platform_kek,
                        pin_hash_enc := some pin_hash_enc
                      }).2.consecutive_pin_mismatches = 0 := by
  unfold client_pin
  dsimp only
  rw [if_neg (by simp)]
  rw [retries_fn_of_some hr]
  dsimp only
  rw [if_neg hr0]
  obtain ⟨shared, s5, hg, hret, hpin, hmis, hblobs⟩ :=
    generate_shared_secret_ok env s platform_kek ser hcbor
  rw [hg]
  dsimp only
  have h3p : (decrement_retries s5).pin_hash = some stored := by
    simp [decrement_retries, hpin, hstored]
  rw [decrypt_pin_hash_match env (decrement_retries s5) shared pin_hash_enc stored
    (hdec shared) h3p]
  dsimp only
  have hres := pin_token_fn_state (reset_retries (decrement_retries s5))
  split
  · exact ⟨hres.1.trans (by simp [reset_retries]),
           hres.2.1.trans (by simp [reset_retries])⟩
  · exact ⟨hres.1.trans (by simp [reset_retries]),
           hres.2.1.trans (by simp [reset_retries])⟩

/-- ChangePin with a valid pin_auth but a wrong PIN: retries ends exactly
one lower and the command fails with the escalation error. -/
theorem change_pin_wrong_pin (env : Env) (s : State)
    (platform_kek pin_hash_enc new_pin_enc pin_auth ser pt stored : List Nat) (r : Nat)
    (hr : s.retries = some r) (hr0 : r ≠ 0)
    (hcbor : env.cborSerializeCose platform_kek = some ser)
    (hdec : ∀ k, env.decryptAes256Cbc k pin_hash_enc = some pt)
    (hauth : ∀ k, (env.signHmacSha256 k (new_pin_enc ++ pin_hash_enc)).take 16 = pin_auth)
    (hstored : s.pin_hash = some stored)
    (hne : pt ≠ stored) :
    (client_pin env s { pin_protocol := 1, sub_command := .ChangePin,
                        key_agreement := some platform_kek,
                        new_pin_enc := some new_pin_enc,
                        pin_hash_enc := some pin_hash_enc,
                        pin_auth := some pin_auth }).2.retries = some (r - 1) ∧
    (client_pin env s { pin_protocol := 1, sub_command := .ChangePin,
                        key_agreement := some platform_kek,
                        new_pin_enc := some new_pin_enc,
                        pin_hash_enc := some pin_hash_enc,
                        pin_auth := some pin_auth }).1 =
      .error (if r - 1 = 0 then .PinBlocked
              else if 3 ≤ s.consecutive_pin_mismatches + 1 then .PinAuthBlocked
              else .PinInvalid) := by
  unfold client_pin
  dsimp only
  rw [if_neg (by simp)]
  rw [retries_fn_of_some hr]
  dsimp only
  rw [if_neg hr0]
  obtain ⟨shared, s5, hg, hret, hpin, hmis, hblobs⟩ :=
    generate_shared_secret_ok env s platform_kek ser hcbor
  rw [hg]
  dsimp only
  have hva : verify_pin_auth env shared (new_pin_enc ++ pin_hash_enc) pin_auth = .ok () := by
    unfold verify_pin_auth
    rw [if_pos (hauth shared)]
  rw [hva]
  dsimp only
  have h3r : (decrement_retries s5).retries = some (r - 1) := by
    simp [decrement_retries, hret, hr]
  have h3p : (decrement_retries s5).pin_hash = some stored := by
    simp [decrement_retries, hpin, hstored]
  have h3m : (decrement_retries s5).consecutive_pin_mismatches =
      s.consecutive_pin_mismatches + 1 := by
    simp [decrement_retries, hmis]
  rw [decrypt_pin_hash_mismatch env (decrement_retries s5) shared pin_hash_enc pt stored
    (r - 1) (hdec shared) h3p hne h3r]
  dsimp only
  constructor
  · exact h3r
  · rw [h3m]

/-- ChangePin with a valid pin_auth and the right PIN: retries is reset to
8 and the mismatch counter to 0. -/
theorem change_pin_right_pin (env : Env) (s : State)
    (platform_kek pin_hash_enc new_pin_enc pin_auth ser stored : List Nat) (r : Nat)
    (hr : s.retries = some r) (hr0 : r ≠ 0)
    (hcbor : env.cborSerializeCose platform_kek = some ser)
    (hdec : ∀ k, env.decryptAes256Cbc k pin_hash_enc = some stored)
    (hauth : ∀ k, (env.signHmacSha256 k (new_pin_enc ++ pin_hash_enc)).take 16 = pin_auth)
    (hstored : s.pin_hash = some stored) :
    (client_pin env s { pin_protocol := 1, sub_command := .ChangePin,
                        key_agreement := some platform_kek,
                        new_pin_enc := some new_pin_enc,
                        pin_hash_enc := some pin_hash_enc,
                        pin_auth := some pin_auth }).2.retries = some 8 ∧
    (client_pin env s { pin_protocol := 1, sub_command := .ChangePin,
                        key_agreement := some platform_kek,
                        new_pin_enc := some new_pin_enc,
                        pin_hash_enc := some pin_hash_enc,
                        pin_auth := some pin_auth
                      }).2.consecutive_pin_mismatches = 0 := by
  unfold client_pin
  dsimp only
  rw [if_neg (by simp)]
  rw [retries_fn_of_some hr]
  dsimp only
  rw [if_neg hr0]
  obtain ⟨shared, s5, hg, hret, hpin, hmis, hblobs⟩ :=
    generate_shared_secret_ok env s platform_kek ser hcbor
  rw [hg]
  dsimp only
  have hva : verify_pin_auth env shared (new_pin_enc ++ pin_hash_enc) pin_auth = .ok () := by
    unfold verify_pin_auth
    rw [if_pos (hauth shared)]
  rw [hva]
  dsimp only
  have h3p : (decrement_retries s5).pin_hash = some stored := by
    simp [decrement_retries, hpin, hstored]
  rw [decrypt_pin_hash_match env (decrement_retries s5) shared pin_hash_enc stored
    (hdec shared) h3p]
  dsimp only
  split
  · exact ⟨by simp [reset_retries], by simp [reset_retries]⟩
  · exact ⟨by simp [hash_store_pin, reset_retries], by simp [hash_store_pin, reset_retries]⟩

/-- C6: the retry counter stays in [0, 8] (as a Nat it is never negative)
across every ClientPin command, and MakeCredential / GetAssertion leave it
unchanged; a failing PIN verification - in ChangePin as in GetPinToken -
ends with retries exactly one lower, a successful one resets retries to 8
and the mismatch counter to 0. -/
theorem C6_retry_counter_invariant (env : Env) (s : State)
    (hinv : retries_bounded s) :
    (∀ p : ClientPinParameters, retries_bounded (client_pin env s p).2) ∧
    (∀ p : MakeCredentialParameters, (make_credential env s p).2.retries = s.retries) ∧
    (∀ p : GetAssertionParameters, (get_assertion env s p).2.retries = s.retries) ∧
    (∀ (platform_kek pin_hash_enc new_pin_enc pin_auth ser pt stored : List Nat) (r : Nat),
      s.retries = some r → r ≠ 0 →
      env.cborSerializeCose platform_kek = some ser →
      (∀ k, env.decryptAes256Cbc k pin_hash_enc = some pt) →
      s.pin_hash = some stored →
      (∀ k, (env.signHmacSha256 k (new_pin_enc ++ pin_hash_enc)).take 16 = pin_auth) →
      ((pt ≠ stored →
        (client_pin env s { pin_protocol := 1, sub_command := .GetPinToken,
                            key_agreement := some platform_kek,
                            pin_hash_enc := some pin_hash_enc }).2.retries =
          some (r - 1) ∧
        (client_pin env s { pin_protocol := 1, sub_command := .ChangePin,
                            key_agreement := some platform_kek,
                            new_pin_enc := some new_pin_enc,
                            pin_hash_enc := some pin_hash_enc,
                            pin_auth := some pin_auth }).2.retries = some (r - 1)) ∧
       (pt = stored →
        ((client_pin env s { pin_protocol := 1, sub_command := .GetPinToken,
                             key_agreement := some platform_kek,
                             pin_hash_enc := some pin_hash_enc }).2.retries = some 8 ∧
         (client_pin env s { pin_protocol := 1, sub_command := .GetPinToken,
                             key_agreement := some platform_kek,
                             pin_hash_enc := some pin_hash_enc
                           }).2.consecutive_pin_mismatches = 0) ∧
        ((client_pin env s { pin_protocol := 1, sub_command := .ChangePin,
                             key_agreement := some platform_kek,
                             new_pin_enc := some new_pin_enc,
                             pin_hash_enc := some pin_hash_enc,
                             pin_auth := some pin_auth }).2.retries = some 8 ∧
         (client_pin env s { pin_protocol := 1, sub_command := .ChangePin,
                             key_agreement := some platform_kek,
                             new_pin_enc := some new_pin_enc,
                             pin_hash_enc := some pin_hash_enc,
                             pin_auth := some pin_auth
                           }).2.consecutive_pin_mismatches = 0)))) := by
  refine ⟨fun p => client_pin_retries_bounded env s p hinv,
          fun p => make_credential_retries env s p,
          fun p => get_assertion_retries env s p,
          fun platform_kek pin_hash_enc new_pin_enc pin_auth ser pt stored r
              hr hr0 hcbor hdec hstored hauth =>
            ⟨fun hne =>
              ⟨(get_pin_token_wrong_pin env s platform_kek pin_hash_enc ser pt
                  stored r hr hr0 hcbor hdec hstored hne).1,
               (change_pin_wrong_pin env s platform_kek pin_hash_enc new_pin_enc pin_auth
                  ser pt stored r hr hr0 hcbor hdec hauth hstored hne).1⟩,
             fun heq =>
              ⟨get_pin_token_right_pin env s platform_kek pin_hash_enc ser
                  stored r hr hr0 hcbor (heq ▸ hdec) hstored,
               change_pin_right_pin env s platform_kek pin_hash_enc new_pin_enc pin_auth
                  ser stored r hr hr0 hcbor (heq ▸ hdec) hauth hstored⟩⟩⟩

/-- Witness for C6: one wrong-PIN GetPinToken from the fresh state leaves
retries at 7. -/
theorem C6_retry_counter_invariant_witness :
    (client_pin envWrongPin freshPinState getPinTokenParams).2.retries = some 7 := by
  have h := C6_retry_counter_invariant envWrongPin freshPinState
    (by intro r hr; simp [freshPinState] at hr; omega)
  have h4 := ((h.2.2.2 [] [2] [] (List.replicate 16 0) [] [1, 1] [0, 0] 8 rfl (by decide)
    rfl (fun k => rfl) rfl (fun k => rfl)).1 (by decide)).1
  simpa [getPinTokenParams] using h4

/-- C10: ChangePin or GetPinToken with all required parameters and
pin_protocol 1 (for ChangePin with a valid pin_auth) while no PIN is set
returns `InvalidCommand`, and retries has already been decremented by 1 and
is not restored. -/
theorem C10_no_pin_invalid_command_after_decrement (env : Env) (s : State)
    (platform_kek pin_hash_enc new_pin_enc pin_auth ser pt : List Nat) (r : Nat)
    (hr : s.retries = some r) (hr0 : r ≠ 0)
    (hpin : s.pin_hash = none)
    (hcbor : env.cborSerializeCose platform_kek = some ser)
    (hdec : ∀ k, env.decryptAes256Cbc k pin_hash_enc = some pt)
    (hauth : ∀ k, (env.signHmacSha256 k (new_pin_enc ++ pin_hash_enc)).take 16 = pin_auth) :
    (client_pin env s { pin_protocol := 1, sub_command := .GetPinToken,
                        key_agreement := some platform_kek,
                        pin_hash_enc := some pin_hash_enc }).1 = .error .InvalidCommand ∧
    (client_pin env s { pin_protocol := 1, sub_command := .GetPinToken,
                        key_agreement := some platform_kek,
                        pin_hash_enc := some pin_hash_enc }).2.retries = some (r - 1) ∧
    (client_pin env s { pin_protocol := 1, sub_command := .ChangePin,
                        key_agreement := some platform_kek,
                        new_pin_enc := some new_pin_enc,
                        pin_hash_enc := some pin_hash_enc,
                        pin_auth := some pin_auth }).1 = .error .InvalidCommand ∧
    (client_pin env s { pin_protocol := 1, sub_command := .ChangePin,
                        key_agreement := some platform_kek,
                        new_pin_enc := some new_pin_enc,
                        pin_hash_enc := some pin_hash_enc,
                        pin_auth := some pin_auth }).2.retries = some (r - 1) := by
  obtain ⟨shared, s5, hg, hret, hpin5, hmis, hblobs⟩ :=
    generate_shared_secret_ok env s platform_kek ser hcbor
  have h3r : (decrement_retries s5).retries = some (r - 1) := by
    simp [decrement_retries, hret, hr]
  have h3p : (decrement_retries s5).pin_hash = none := by
    simp [decrement_retries, hpin5, hpin]
  have hgpt :
      client_pin env s { pin_protocol := 1, sub_command := .GetPinToken,
                         key_agreement := some platform_kek,
                         pin_hash_enc := some pin_hash_enc } =
        (.error .InvalidCommand, decrement_retries s5) := by
    unfold client_pin
    dsimp only
    rw [if_neg (by simp)]
    rw [retries_fn_of_some hr]
    dsimp only
    rw [if_neg hr0]
    rw [hg]
    dsimp only
    rw [decrypt_pin_hash_no_pin env (decrement_retries s5) shared pin_hash_enc pt
      (hdec shared) h3p]
  have hcp :
      client_pin env s { pin_protocol := 1, sub_command := .ChangePin,
                         key_agreement := some platform_kek,
                         new_pin_enc := some new_pin_enc,
                         pin_hash_enc := some pin_hash_enc,
                         pin_auth := some pin_auth } =
        (.error .InvalidCommand, decrement_retries s5) := by
    unfold client_pin
    dsimp only
    rw [if_neg (by simp)]
    rw [retries_fn_of_some hr]
    dsimp only
    rw [if_neg hr0]
    rw [hg]
    dsimp only
    have hva : verify_pin_auth env shared (new_pin_enc ++ pin_hash_enc) pin_auth = .ok () := by
      unfold verify_pin_auth
      rw [if_pos (hauth shared)]
    rw [hva]
    dsimp only
    rw [decrypt_pin_hash_no_pin env (decrement_retries s5) shared pin_hash_enc pt
      (hdec shared) h3p]
  rw [hgpt, hcp]
  exact ⟨rfl, h3r, rfl, h3r⟩

/-- Witness for C10: concrete GetPinToken with no PIN set. -/
theorem C10_no_pin_invalid_command_after_decrement_witness :
    (client_pin envWrongPin { retries := some 8 }
      { pin_protocol := 1, sub_command := .GetPinToken, key_agreement := some [],
        pin_hash_enc := some [2] }).1 = .error .InvalidCommand :=
  (C10_no_pin_invalid_command_after_decrement envWrongPin { retries := some 8 }
    [] [2] [] (List.replicate 16 0) [] [1, 1] 8 rfl (by decide) rfl rfl
    (fun k => rfl) (fun k => rfl)).1
